import Mathlib

/-!
Shallow embedding of `src/modules/ml_detection/anomaly_detector.py`
(class `MLAnomalyDetector`): baseline training, per-feature anomaly
scoring (numeric z-score and categorical frequency), severity
classification, and timing-variance analysis.

Modelling conventions:
* Python numbers (int/float) are modelled as exact reals `ℝ`.
* A Python value that can be a number, a string or anything else is
  the inductive `Value` (`Value.other h` stands for any value that is
  neither a number nor a string, with `h` recording whether the value
  is hashable: `Value.other true` models e.g. `None` or a tuple,
  `Value.other false` models e.g. a list or a dict, on which
  `dict[v] += 1` raises `TypeError`).
* A raised Python exception is modelled as `Except.error` / an `Err`
  value; code with no fallible path returns plain values.
* The `headers` entry of a response dict is either a sized mapping
  (`HeadersVal.map`, an insertion-ordered association list, the model
  of a Python dict) or `HeadersVal.notSized`, standing for any value
  on which `len()` raises `TypeError`.
* `hashlib.md5(...).hexdigest()[:8]` is abstracted as an arbitrary
  function `hash : String → String` applied to the string form of the
  input identity; nothing proved here depends on the concrete hash.
* f-string rendering of real numbers (the `evidence` strings) is
  modelled structurally by the `Evidence` type carrying the same
  numeric data the format string embeds.
-/

namespace AnomalyDetector

open scoped Classical

/-- A Python scalar value as seen by the detector: a number
(int/float, modelled exactly as a real), a string, or anything else;
for the last kind the flag records whether the Python value is
hashable (`None` or a tuple is, a list or a dict is not). -/
inductive Value where
  | num (x : ℝ)
  | str (s : String)
  | other (hashable : Bool)

/-- Whether using the value as a dict key succeeds in Python; numbers
and strings are always hashable. -/
def Value.hashable : Value → Bool
  | .num _ => true
  | .str _ => true
  | .other h => h

/-- A raised Python exception relevant to this module. -/
inductive Err where
  | typeError
  | zeroDivisionError
deriving DecidableEq

/-- The `headers` entry of a response dict: a sized string-keyed
mapping, or any value on which `len()` raises `TypeError`. -/
inductive HeadersVal where
  | map (entries : List (String × Value))
  | notSized

/-- One HTTP response dict as consumed by `_extract_features`:
each key is optional (absent keys contribute no features).
The `content` entry is kept as the string `str(content)` evaluates to. -/
structure Response where
  response_time : Option Value
  content : Option String
  status_code : Option Value
  headers : Option HeadersVal
  redirect_count : Option Value

/-- Structured content of a finding's `evidence` f-string. -/
inductive Evidence where
  | anomalous (feature : String) (value : Value)
  | timingVariance (stdev mean : ℝ)

/-- One finding dict.  Mandatory keys of both producers are plain
fields; keys present only in some producers are `Option` fields
(`none` models the key being absent from the dict). -/
structure Finding where
  type : String
  severity : String
  feature : Option String
  value : Option Value
  anomaly_score : Option ℝ
  evidence : Evidence
  description : String
  remediation : String
  cwe : Option String

/-- Model of `self.baseline_data`: a `defaultdict(list)`, modelled as an
insertion-ordered association list from feature name to the list of
stored values. -/
abbrev Baseline := List (String × List Value)

/-- Detector state: the fields of `MLAnomalyDetector` read from
`config` (`anomaly_threshold` is stored but never consulted by the
detection thresholds, exactly as in the source). -/
structure MLAnomalyDetector where
  anomaly_threshold : ℝ
  min_samples : ℕ
  baseline_data : Baseline

/-- Model of `statistics.mean` (exact value). -/
noncomputable def listMean (l : List ℝ) : ℝ := l.sum / l.length

/-- Square of `statistics.stdev`: the sample variance with the `n - 1`
denominator. -/
noncomputable def sampleVariance (l : List ℝ) : ℝ :=
  (l.map (fun x => (x - listMean l) ^ 2)).sum / ((l.length : ℝ) - 1)

/-- Model of `statistics.stdev` (exact value): square root of the sample
variance. -/
noncomputable def sampleStdev (l : List ℝ) : ℝ :=
  Real.sqrt (sampleVariance l)

/-- Helper for `numsOf`: extracts the numeric contents of a list of
values, `none` as soon as one element is not a number (the point where
`statistics.mean` raises `TypeError`). -/
def numsOfAux : List Value → Option (List ℝ)
  | [] => some []
  | .num x :: rest => (numsOfAux rest).map (fun l => x :: l)
  | .str _ :: _ => none
  | .other _ :: _ => none

/-- The condition under which `statistics.mean(baseline)` succeeds:
the list is non-empty (else `StatisticsError`) and all its elements
are numbers (else `TypeError`).  Returns the numeric list. -/
def numsOf (l : List Value) : Option (List ℝ) :=
  if l.isEmpty then none else numsOfAux l

/-- Model of `_detect_numeric_anomaly`.  The `try`/`except` around the
statistics calls is the `numsOf` guard: when `mean`/`stdev` would
raise, the handler returns `(False, 0.0)`. -/
noncomputable def detectNumericAnomaly (value : ℝ) (baseline : List Value) :
    Bool × ℝ :=
  match numsOf baseline with
  | none => (false, 0)
  | some nums =>
    let mean := listMean nums
    let stdev := if 1 < nums.length then sampleStdev nums else 0
    if stdev = 0 then (false, 0)
    else
      let z := |(value - mean) / stdev|
      (if 3 < z then true else false, min (z / 10) 1)

/-- Model of `_detect_categorical_anomaly`.  The counting loop
`value_counts[v] += 1` hashes every baseline element, so it raises
`TypeError` when one is unhashable (uncaught in the source); then
`value_counts.get(value, 0)` is the count of baseline elements that
compare `==` to the probe string (a number or non-string value is
never `==` a string in Python), and division by `total_count = 0`
raises `ZeroDivisionError` (also uncaught).  The two error conditions
are mutually exclusive, the loop preceding the division. -/
noncomputable def detectCategoricalAnomaly (value : String)
    (baseline : List Value) : Except Err (Bool × ℝ) :=
  if baseline.any (fun v => !v.hashable) then .error .typeError
  else if baseline.length = 0 then .error .zeroDivisionError
  else
    let count := baseline.countP (fun v =>
      match v with
      | .str s => s == value
      | _ => false)
    let value_frequency : ℝ := (count : ℝ) / (baseline.length : ℝ)
    .ok (if value_frequency < 0.1 then true else false,
         if value_frequency < 0.1 then 1 - value_frequency else 0)

/-- Model of `_is_anomalous`: the min-sample guard, then dispatch on the runtime
type of the probe value. -/
noncomputable def isAnomalous (min_samples : ℕ) (value : Value)
    (baseline_values : List Value) : Except Err (Bool × ℝ) :=
  if baseline_values.length < min_samples then .ok (false, 0)
  else
    match value with
    | .num x => .ok (detectNumericAnomaly x baseline_values)
    | .str s => detectCategoricalAnomaly s baseline_values
    | .other _ => .ok (false, 0)

/-- Model of `_calculate_severity`. -/
noncomputable def calculateSeverity (anomaly_score : ℝ) : String :=
  if 0.8 ≤ anomaly_score then "high"
  else if 0.5 ≤ anomaly_score then "medium"
  else "low"

/-- The keyword list of `_detect_error_patterns`. -/
def errorKeywords : List String :=
  ["exception", "error", "warning", "fatal", "stack trace",
   "sql error", "syntax error", "undefined", "null pointer",
   "access denied", "forbidden", "unauthorized"]

/-- Python `needle in hay` on strings, over the character lists. -/
def substrB (needle hay : List Char) : Bool :=
  hay.tails.any (fun t => needle.isPrefixOf t)

/-- Model of `_detect_error_patterns`: each keyword counted at most once,
matched case-insensitively as a substring. -/
def detectErrorPatterns (content : String) : ℕ :=
  errorKeywords.countP (fun kw => substrB kw.toList content.toLower.toList)

/-- Model of `_calculate_entropy`: Shannon entropy over character frequency. -/
noncomputable def calculateEntropy (content : String) : ℝ :=
  if content.length = 0 then 0
  else
    - ((content.toList.dedup).map (fun c =>
        let p : ℝ := (content.toList.count c : ℝ) / (content.length : ℝ)
        p * Real.logb 2 p)).sum

/-- Model of `_extract_features`: builds the feature dict in source order.
`len(response['headers'])` raises `TypeError` when the headers value
is not sized; that exception propagates (no handler in the source). -/
noncomputable def extractFeatures (r : Response) :
    Except Err (List (String × Value)) :=
  let f1 : List (String × Value) :=
    match r.response_time with
    | some v => [("response_time", v)]
    | none => []
  let f2 : List (String × Value) :=
    match r.content with
    | some c => [("response_size", Value.num (c.length : ℝ))]
    | none => []
  let f3 : List (String × Value) :=
    match r.status_code with
    | some v => [("status_code", v)]
    | none => []
  let f6 : List (String × Value) :=
    match r.content with
    | some c => [("content_entropy", Value.num (calculateEntropy c))]
    | none => []
  let f7 : List (String × Value) :=
    match r.content with
    | some c => [("error_pattern", Value.num (detectErrorPatterns c : ℝ))]
    | none => []
  let f8 : List (String × Value) :=
    match r.redirect_count with
    | some v => [("redirect_count", v)]
    | none => []
  match r.headers with
  | some .notSized => .error .typeError
  | none => .ok (f1 ++ f2 ++ f3 ++ f6 ++ f7 ++ f8)
  | some (.map hs) =>
    let f4 : List (String × Value) := [("header_count", Value.num (hs.length : ℝ))]
    let f5 : List (String × Value) :=
      match hs.lookup "Content-Type" with
      | some v => [("content_type", v)]
      | none => []
    .ok (f1 ++ f2 ++ f3 ++ f4 ++ f5 ++ f6 ++ f7 ++ f8)

/-- Model of `self.baseline_data[feature_name].append(feature_value)` on the
`defaultdict(list)`: append to the first entry with this key, or
create the key at the end with a one-element list. -/
def baselineAppend : Baseline → String → Value → Baseline
  | [], name, v => [(name, [v])]
  | (k, vs) :: rest, name, v =>
    if k == name then (k, vs ++ [v]) :: rest
    else (k, vs) :: baselineAppend rest name v

/-- Reading `self.baseline_data[feature_name]` on the defaultdict:
returns the stored list, inserting an empty list first when the key is
missing. -/
def baselineFetch (b : Baseline) (name : String) : Baseline × List Value :=
  match b.lookup name with
  | some vs => (b, vs)
  | none => (b ++ [(name, [])], [])

/-- One loop iteration of `train_baseline`: extract the features of one
response and append each to the baseline.  An extraction exception
leaves the baseline as it was before this response. -/
noncomputable def trainOne (b : Baseline) (r : Response) : Baseline × Option Err :=
  match extractFeatures r with
  | .error e => (b, some e)
  | .ok feats => (feats.foldl (fun acc p => baselineAppend acc p.1 p.2) b, none)

/-- Model of `train_baseline`: processes responses in order; a raised exception
aborts the loop but keeps the appends already performed. -/
noncomputable def trainBaseline (b : Baseline) : List Response → Baseline × Option Err
  | [] => (b, none)
  | r :: rs =>
    match trainOne b r with
    | (b', none) => trainBaseline b' rs
    | (b', some e) => (b', some e)

/-- The anomaly dict appended by `detect_anomalies` for one anomalous
feature. -/
noncomputable def mkAnomalyFinding (name : String) (v : Value) (score : ℝ) :
    Finding :=
  Finding.mk "ML Anomaly Detection" (calculateSeverity score)
    (some name) (some v) (some score) (Evidence.anomalous name v)
    ("Machine learning detected unusual " ++ name)
    "Investigate the anomalous behavior for security implications"
    none

/-- The loop of `detect_anomalies` over the extracted features,
threading the baseline through the guarded defaultdict reads. -/
noncomputable def detectGo (min_samples : ℕ) :
    List (String × Value) → Baseline → List Finding →
    Baseline × Except Err (List Finding)
  | [], b, acc => (b, .ok acc)
  | (name, v) :: rest, b, acc =>
    if (b.lookup name).isSome then
      let p := baselineFetch b name
      match isAnomalous min_samples v p.2 with
      | .error e => (p.1, .error e)
      | .ok (isA, score) =>
        if isA then
          detectGo min_samples rest p.1 (acc ++ [mkAnomalyFinding name v score])
        else detectGo min_samples rest p.1 acc
    else detectGo min_samples rest b acc

/-- Model of `detect_anomalies`: empty-baseline early return, feature
extraction, then the per-feature loop.  The first component is the
baseline map after the call (the source mutates `self.baseline_data`
only through the defaultdict accesses modelled in `detectGo`). -/
noncomputable def detectAnomalies (s : MLAnomalyDetector) (r : Response) :
    Baseline × Except Err (List Finding) :=
  if s.baseline_data.length = 0 then (s.baseline_data, .ok [])
  else
    match extractFeatures r with
    | .error e => (s.baseline_data, .error e)
    | .ok feats => detectGo s.min_samples feats s.baseline_data []

/-- The finding dict appended by `detect_timing_attacks` for one
flagged group. -/
noncomputable def timingFinding (stdev_time mean_time : ℝ) : Finding :=
  Finding.mk "ML Anomaly - Timing Attack" "medium" none none none
    (Evidence.timingVariance stdev_time mean_time)
    "Significant response time variance detected"
    "Implement constant-time operations for sensitive comparisons"
    (some "CWE-208: Observable Timing Discrepancy")

/-- The keys of the `timing_groups` dict in insertion order: first
occurrence of each hash. -/
def firstOccKeys (l : List String) : List String :=
  l.foldl (fun acc k => if acc.contains k then acc else acc ++ [k]) []

/-- The latencies grouped under one hash key, in input order. -/
def groupTimes (hash : String → String) (timing_data : List (String × ℝ))
    (k : String) : List ℝ :=
  (timing_data.filter (fun p => hash p.1 == k)).map Prod.snd

/-- Model of `detect_timing_attacks`.  `hash` abstracts
`hashlib.md5(str(input_data)).hexdigest()[:8]` applied to the string
form of the input identity. -/
noncomputable def detectTimingAttacks (hash : String → String)
    (timing_data : List (String × ℝ)) : List Finding :=
  if timing_data.length < 2 then []
  else
    (firstOccKeys (timing_data.map (fun p => hash p.1))).filterMap
      (fun k =>
        let times := groupTimes hash timing_data k
        if 1 < times.length then
          let mean_time := listMean times
          let stdev_time := if 1 < times.length then sampleStdev times else 0
          if mean_time * 0.5 < stdev_time then
            some (timingFinding stdev_time mean_time)
          else none
        else none)

end AnomalyDetector

namespace AnomalyDetector

/-! ### Supporting lemmas -/

lemma numsOfAux_map_num (bl : List ℝ) :
    numsOfAux (bl.map Value.num) = some bl := by
  induction bl with
  | nil => rfl
  | cons x xs ih => simp [numsOfAux, ih]

lemma numsOf_map_num (bl : List ℝ) (h : bl ≠ []) :
    numsOf (bl.map Value.num) = some bl := by
  simp [numsOf, numsOfAux_map_num, h]

lemma sampleStdev_nonneg (l : List ℝ) : 0 ≤ sampleStdev l :=
  Real.sqrt_nonneg _

/-- A concrete numeric baseline with mean 0 and sample variance 4. -/
def blW : List ℝ := [3, 3, -3, -3, 0, 0, 0, 0, 0, 0]

lemma blW_mean : listMean blW = 0 := by
  norm_num [blW, listMean]

lemma blW_stdev : sampleStdev blW = 2 := by
  have hv : sampleVariance blW = 4 := by
    norm_num [blW, sampleVariance, listMean]
  have h4 : (4 : ℝ) = 2 ^ 2 := by norm_num
  rw [sampleStdev, hv, h4, Real.sqrt_sq (by norm_num : (0:ℝ) ≤ 2)]

/-! ### Claim C1 -/

/-- Claim C1: for every numeric probe value and every baseline of
length at least `min_samples` (and at least 2, so that the sample
standard deviation exists), the scorer computes the mean
`sum / n` and sample standard deviation
`sqrt (sum (x - mean)^2 / (n - 1))` of the baseline; if the standard
deviation is 0 it returns `(false, 0)`; otherwise with
`z = |value - mean| / stdev` it is anomalous iff `z > 3` with score
`min (z / 10) 1`; and a probe equal to the baseline mean is never
anomalous. -/
theorem C1_numeric_scorer (m : ℕ) (x : ℝ) (bl : List ℝ)
    (hm : m ≤ bl.length) (h2 : 2 ≤ bl.length) :
    (listMean bl = bl.sum / bl.length ∧
      sampleStdev bl =
        Real.sqrt ((bl.map (fun y => (y - listMean bl) ^ 2)).sum /
          ((bl.length : ℝ) - 1))) ∧
    (sampleStdev bl = 0 →
      isAnomalous m (.num x) (bl.map Value.num) = .ok (false, 0)) ∧
    (sampleStdev bl ≠ 0 →
      isAnomalous m (.num x) (bl.map Value.num) =
        .ok (if 3 < |x - listMean bl| / sampleStdev bl then true else false,
             min (|x - listMean bl| / sampleStdev bl / 10) 1)) ∧
    (x = listMean bl →
      isAnomalous m (.num x) (bl.map Value.num) = .ok (false, 0)) := by
  have hne : bl ≠ [] := by
    intro h; rw [h] at h2; simp at h2
  have hlen : ¬ ((bl.map Value.num).length < m) := by
    simpa using Nat.not_lt.mpr hm
  have h1lt : 1 < bl.length := by omega
  have hnum : isAnomalous m (.num x) (bl.map Value.num) =
      .ok (detectNumericAnomaly x (bl.map Value.num)) := by
    rw [isAnomalous, if_neg hlen]
  have hdet : detectNumericAnomaly x (bl.map Value.num) =
      (if sampleStdev bl = 0 then (false, 0) else
        (if 3 < |(x - listMean bl) / sampleStdev bl| then true else false,
         min (|(x - listMean bl) / sampleStdev bl| / 10) 1)) := by
    rw [detectNumericAnomaly, numsOf_map_num bl hne]
    simp only [if_pos h1lt]
  refine ⟨⟨rfl, rfl⟩, ?_, ?_, ?_⟩
  · intro hz
    rw [hnum, hdet, if_pos hz]
  · intro hz
    have hpos : 0 < sampleStdev bl :=
      lt_of_le_of_ne (sampleStdev_nonneg bl) (Ne.symm hz)
    have habs : |(x - listMean bl) / sampleStdev bl| =
        |x - listMean bl| / sampleStdev bl := by
      rw [abs_div, abs_of_pos hpos]
    rw [hnum, hdet, if_neg hz, habs]
  · intro hx
    by_cases hz : sampleStdev bl = 0
    · rw [hnum, hdet, if_pos hz]
    · have : (x - listMean bl) / sampleStdev bl = 0 := by
        rw [hx, sub_self, zero_div]
      rw [hnum, hdet, if_neg hz, this]
      norm_num

/-- Witness for C1: the baseline `blW` (mean 0, stdev 2) and the probe
8 = mean + 4·stdev give an anomalous verdict with score `4/10`. -/
theorem C1_numeric_scorer_witness :
    isAnomalous 10 (.num 8) (blW.map Value.num) = .ok (true, 2/5) := by
  have hσ : sampleStdev blW ≠ 0 := by rw [blW_stdev]; norm_num
  have h := (C1_numeric_scorer 10 8 blW (by norm_num [blW])
    (by norm_num [blW])).2.2.1 hσ
  rw [h, blW_stdev, blW_mean]
  norm_num

end AnomalyDetector

namespace AnomalyDetector

lemma countP_map_str (bl : List String) (s : String) :
    ((bl.map Value.str).countP (fun v =>
      match v with
      | .str t => t == s
      | _ => false)) = bl.count s := by
  induction bl with
  | nil => rfl
  | cons a as ih => simp [List.countP_cons, List.count_cons, ih]

/-- Evaluation of `_is_anomalous` on a numeric probe against an
all-numeric baseline of length at least `min_samples` and at least
2. -/
lemma isAnomalous_num_eval (m : ℕ) (x : ℝ) (bl : List ℝ)
    (hm : m ≤ bl.length) (h2 : 2 ≤ bl.length) :
    isAnomalous m (.num x) (bl.map Value.num) =
      .ok (if sampleStdev bl = 0 then (false, 0) else
        (if 3 < |(x - listMean bl) / sampleStdev bl| then true else false,
         min (|(x - listMean bl) / sampleStdev bl| / 10) 1)) := by
  have hne : bl ≠ [] := by
    intro h; rw [h] at h2; simp at h2
  have hlen : ¬ ((bl.map Value.num).length < m) := by
    simpa using Nat.not_lt.mpr hm
  have h1lt : 1 < bl.length := by omega
  rw [isAnomalous, if_neg hlen]
  rw [detectNumericAnomaly, numsOf_map_num bl hne]
  simp only [if_pos h1lt]

/-- Evaluation of `_is_anomalous` on a string probe against an
all-string baseline of length at least `min_samples` and positive. -/
lemma isAnomalous_str_eval (m : ℕ) (s : String) (bl : List String)
    (hm : m ≤ bl.length) (hne : 0 < bl.length) :
    isAnomalous m (.str s) (bl.map Value.str) =
      .ok (if ((bl.count s : ℝ) / (bl.length : ℝ)) < 0.1 then true else false,
           if ((bl.count s : ℝ) / (bl.length : ℝ)) < 0.1
           then 1 - (bl.count s : ℝ) / (bl.length : ℝ) else 0) := by
  have hlen : ¬ ((bl.map Value.str).length < m) := by
    simpa using Nat.not_lt.mpr hm
  have hz : ¬ ((bl.map Value.str).length = 0) := by
    simp only [List.length_map]
    omega
  have hany : ¬ (((bl.map Value.str).any fun v => !v.hashable) = true) := by
    simp [Value.hashable]
  rw [isAnomalous, if_neg hlen, detectCategoricalAnomaly, if_neg hany,
    if_neg hz]
  simp only [countP_map_str, List.length_map]

/-! ### Claim C2 -/

/-- Claim C2: for every string probe and baseline of strings of length
at least `min_samples` (positive), the scorer returns anomalous iff
the empirical frequency `count / total` of exact matches is strictly
below `0.1`, with score `1 - frequency` when anomalous and `0`
otherwise; a probe whose frequency is exactly `0.1` (1 match in 10) is
not anomalous, and a never-seen probe is anomalous with score `1`. -/
theorem C2_categorical_scorer (m : ℕ) (s : String) (bl : List String)
    (hm : m ≤ bl.length) (hne : 0 < bl.length) :
    (isAnomalous m (.str s) (bl.map Value.str) =
      .ok (if ((bl.count s : ℝ) / (bl.length : ℝ)) < 0.1 then true else false,
           if ((bl.count s : ℝ) / (bl.length : ℝ)) < 0.1
           then 1 - (bl.count s : ℝ) / (bl.length : ℝ) else 0)) ∧
    (s ∉ bl → isAnomalous m (.str s) (bl.map Value.str) = .ok (true, 1)) ∧
    (isAnomalous 10 (.str "b")
        ((List.replicate 9 "a" ++ ["b"]).map Value.str) = .ok (false, 0)) ∧
    (isAnomalous 10 (.str "c")
        ((List.replicate 9 "a" ++ ["b"]).map Value.str) = .ok (true, 1)) := by
  refine ⟨isAnomalous_str_eval m s bl hm hne, ?_, ?_, ?_⟩
  · intro hs
    have hc : bl.count s = 0 := List.count_eq_zero.mpr hs
    rw [isAnomalous_str_eval m s bl hm hne, hc]
    have hfreq : ((0 : ℕ) : ℝ) / (bl.length : ℝ) = 0 := by simp
    rw [hfreq, if_pos (by norm_num : (0:ℝ) < 0.1),
      if_pos (by norm_num : (0:ℝ) < 0.1)]
    norm_num
  · have hcount : (List.replicate 9 "a" ++ ["b"]).count "b" = 1 := by decide
    have hlen : (List.replicate 9 "a" ++ ["b"]).length = 10 := by decide
    rw [isAnomalous_str_eval 10 "b" _ (by decide) (by decide), hcount, hlen]
    rw [if_neg (by norm_num), if_neg (by norm_num)]
  · have hcount : (List.replicate 9 "a" ++ ["b"]).count "c" = 0 := by decide
    have hlen : (List.replicate 9 "a" ++ ["b"]).length = 10 := by decide
    rw [isAnomalous_str_eval 10 "c" _ (by decide) (by decide), hcount, hlen]
    rw [if_pos (by norm_num), if_pos (by norm_num)]
    norm_num

/-- Witness for C2 at the frequency-0.1 boundary. -/
theorem C2_categorical_scorer_witness :
    isAnomalous 10 (.str "b")
      ((List.replicate 9 "a" ++ ["b"]).map Value.str) = .ok (false, 0) :=
  (C2_categorical_scorer 10 "b" (List.replicate 9 "a" ++ ["b"])
    (by decide) (by decide)).2.2.1

/-! ### Claim C3 -/

/-- Claim C3: insufficient evidence is never an anomaly.
`detect_anomalies` on an untrained engine returns the empty finding
list without raising for every response, and the per-feature scorer
returns `(false, 0)` for every feature value of any type and every
baseline shorter than `min_samples`. -/
theorem C3_insufficient_evidence :
    (∀ (s : MLAnomalyDetector) (r : Response), s.baseline_data = [] →
      detectAnomalies s r = ([], .ok [])) ∧
    (∀ (m : ℕ) (v : Value) (b : List Value), b.length < m →
      isAnomalous m v b = .ok (false, 0)) := by
  constructor
  · intro s r h
    rw [detectAnomalies, if_pos (by rw [h]; rfl), h]
  · intro m v b h
    rw [isAnomalous.eq_def, if_pos h]

/-- Witness for C3: the untrained default-config detector on an empty
response, and the scorer at `min_samples = 10` on an empty baseline
with a non-numeric, non-string value. -/
theorem C3_insufficient_evidence_witness :
    detectAnomalies (MLAnomalyDetector.mk 0.7 10 [])
      (Response.mk none none none none none) = ([], .ok []) ∧
    isAnomalous 10 (.other false) [] = .ok (false, 0) :=
  ⟨C3_insufficient_evidence.1 _ _ rfl,
   C3_insufficient_evidence.2 10 (.other false) [] (by norm_num)⟩

/-! ### Claim C4 -/

/-- Claim C4: the severity classifier is total and deterministic with
inclusive lower boundaries (`0.8 ≤ s → high`, `0.5 ≤ s < 0.8 →
medium`, `s < 0.5 → low`); a numeric probe at `mean + 4·stdev` (for a
baseline with nonzero sample standard deviation) is anomalous with
score `0.4`, classified `low`, and score exactly `0.5` classifies
`medium`. -/
theorem C4_severity (sc : ℝ) (m : ℕ) (bl : List ℝ)
    (hm : m ≤ bl.length) (h2 : 2 ≤ bl.length) (hσ : sampleStdev bl ≠ 0) :
    ((0.8 ≤ sc → calculateSeverity sc = "high") ∧
     (0.5 ≤ sc ∧ sc < 0.8 → calculateSeverity sc = "medium") ∧
     (sc < 0.5 → calculateSeverity sc = "low")) ∧
    (isAnomalous m (.num (listMean bl + 4 * sampleStdev bl))
        (bl.map Value.num) = .ok (true, 0.4) ∧
      calculateSeverity 0.4 = "low") ∧
    calculateSeverity 0.5 = "medium" := by
  have hpos : 0 < sampleStdev bl :=
    lt_of_le_of_ne (sampleStdev_nonneg bl) (Ne.symm hσ)
  refine ⟨⟨?_, ?_, ?_⟩, ⟨?_, ?_⟩, ?_⟩
  · intro h
    rw [calculateSeverity, if_pos h]
  · rintro ⟨h1, h2'⟩
    rw [calculateSeverity, if_neg (by linarith), if_pos h1]
  · intro h
    rw [calculateSeverity, if_neg (by linarith), if_neg (by linarith)]
  · rw [isAnomalous_num_eval m _ bl hm h2, if_neg hσ]
    have hz : (listMean bl + 4 * sampleStdev bl - listMean bl) /
        sampleStdev bl = 4 := by
      field_simp
    rw [hz]
    rw [if_pos (by rw [abs_of_pos (by norm_num : (0:ℝ) < 4)]; norm_num)]
    rw [abs_of_pos (by norm_num : (0:ℝ) < 4)]
    norm_num
  · rw [calculateSeverity, if_neg (by norm_num), if_neg (by norm_num)]
  · rw [calculateSeverity, if_neg (by norm_num), if_pos (by norm_num)]

/-- Witness for C4: severity at concrete scores and the `mean +
4·stdev` probe over the concrete baseline `blW`. -/
theorem C4_severity_witness :
    calculateSeverity 0.9 = "high" ∧
    isAnomalous 10 (.num (listMean blW + 4 * sampleStdev blW))
      (blW.map Value.num) = .ok (true, 0.4) := by
  have h := C4_severity 0.9 10 blW (by norm_num [blW]) (by norm_num [blW])
    (by rw [blW_stdev]; norm_num)
  exact ⟨h.1.1 (by norm_num), h.2.1.1⟩

end AnomalyDetector

namespace AnomalyDetector

lemma sampleVariance_pair_11 : sampleVariance [(1:ℝ), 1] = 0 := by
  norm_num [sampleVariance, listMean, List.sum_cons, List.sum_nil]

lemma sampleVariance_pair_13 : sampleVariance [(1:ℝ), 3] = 2 := by
  norm_num [sampleVariance, listMean, List.sum_cons, List.sum_nil]

lemma sampleStdev_pair_11 : sampleStdev [(1:ℝ), 1] = 0 := by
  rw [sampleStdev, sampleVariance_pair_11, Real.sqrt_zero]

lemma sampleStdev_pair_13 : sampleStdev [(1:ℝ), 3] = Real.sqrt 2 := by
  rw [sampleStdev, sampleVariance_pair_13]

lemma listMean_pair_11 : listMean [(1:ℝ), 1] = 1 := by
  norm_num [listMean, List.sum_cons, List.sum_nil]

lemma listMean_pair_13 : listMean [(1:ℝ), 3] = 2 := by
  norm_num [listMean, List.sum_cons, List.sum_nil]

lemma one_lt_sqrt_two : (1:ℝ) < Real.sqrt 2 := by
  rw [show (1:ℝ) = Real.sqrt 1 by rw [Real.sqrt_one]]
  exact Real.sqrt_lt_sqrt (by norm_num) (by norm_num)

/-- Applying `firstOccKeys` to two equal hashes gives the single hash. -/
lemma firstOccKeys_two_eq (k : String) : firstOccKeys [k, k] = [k] := by
  simp [firstOccKeys]

lemma groupTimes_two (hash : String → String) (a b : ℝ) :
    groupTimes hash [("x", a), ("x", b)] (hash "x") = [a, b] := by
  simp [groupTimes]

/-- Evaluation of `detect_timing_attacks` on two samples of the same
identity with equal latencies: no finding. -/
lemma timing_eval_const (hash : String → String) :
    detectTimingAttacks hash [("x", (1:ℝ)), ("x", 1)] = [] := by
  rw [detectTimingAttacks, if_neg (by norm_num)]
  simp only [List.map_cons, List.map_nil, firstOccKeys_two_eq,
    List.filterMap_cons, List.filterMap_nil, groupTimes_two]
  rw [if_pos (by norm_num : 1 < ([(1:ℝ), 1]).length)]
  rw [if_pos (by norm_num : 1 < ([(1:ℝ), 1]).length)]
  rw [listMean_pair_11, sampleStdev_pair_11]
  rw [if_neg (by norm_num)]

/-- Evaluation of `detect_timing_attacks` on two samples of the same
identity with latencies 1 and 3: exactly one finding, with standard
deviation `√2` and mean `2`. -/
lemma timing_eval_var (hash : String → String) :
    detectTimingAttacks hash [("x", (1:ℝ)), ("x", 3)] =
      [timingFinding (Real.sqrt 2) 2] := by
  rw [detectTimingAttacks, if_neg (by norm_num)]
  simp only [List.map_cons, List.map_nil, firstOccKeys_two_eq,
    List.filterMap_cons, List.filterMap_nil, groupTimes_two]
  rw [if_pos (by norm_num : 1 < ([(1:ℝ), 3]).length)]
  rw [if_pos (by norm_num : 1 < ([(1:ℝ), 3]).length)]
  rw [listMean_pair_13, sampleStdev_pair_13]
  rw [if_pos (by rw [show (2:ℝ) * 0.5 = 1 by norm_num]; exact one_lt_sqrt_two)]

/-- Length of the filter-map in `detect_timing_attacks` equals the
number of flagged groups. -/
lemma length_filterMap_timing (l : List String) (times : String → List ℝ) :
    (l.filterMap (fun k =>
        if 1 < (times k).length then
          if listMean (times k) * 0.5 <
              (if 1 < (times k).length then sampleStdev (times k) else 0) then
            some (timingFinding
              (if 1 < (times k).length then sampleStdev (times k) else 0)
              (listMean (times k)))
          else none
        else none)).length =
      l.countP (fun k => decide (1 < (times k).length ∧
        listMean (times k) * 0.5 < sampleStdev (times k))) := by
  induction l with
  | nil => rfl
  | cons a as ih =>
    rw [List.filterMap_cons, List.countP_cons]
    by_cases h1 : 1 < (times a).length
    · by_cases h2 : listMean (times a) * 0.5 < sampleStdev (times a)
      · rw [if_pos h1, if_pos h1, if_pos h2]
        simp only [List.length_cons, ih, decide_eq_true (And.intro h1 h2),
          if_pos]
      · rw [if_pos h1, if_pos h1, if_neg h2]
        have : decide (1 < (times a).length ∧
            listMean (times a) * 0.5 < sampleStdev (times a)) = false := by
          simp [h2]
        rw [ih, this]
        simp
    · rw [if_neg h1]
      have : decide (1 < (times a).length ∧
          listMean (times a) * 0.5 < sampleStdev (times a)) = false := by
        simp [h1]
      rw [ih, this]
      simp

/-- Findings of `detect_timing_attacks` all come from the
`timingFinding` constructor. -/
lemma timing_mem (hash : String → String) (data : List (String × ℝ))
    (f : Finding) (hf : f ∈ detectTimingAttacks hash data) :
    ∃ st mt, f = timingFinding st mt := by
  rw [detectTimingAttacks] at hf
  by_cases hl : data.length < 2
  · rw [if_pos hl] at hf
    simp at hf
  · rw [if_neg hl] at hf
    obtain ⟨k, _, hgk⟩ := List.mem_filterMap.mp hf
    by_cases h1 : 1 < (groupTimes hash data k).length
    · rw [if_pos h1] at hgk
      by_cases h2 : listMean (groupTimes hash data k) * 0.5 <
          (if 1 < (groupTimes hash data k).length
           then sampleStdev (groupTimes hash data k) else 0)
      · rw [if_pos h2] at hgk
        exact ⟨_, _, (Option.some_injective _ hgk).symm⟩
      · rw [if_neg h2] at hgk
        exact absurd hgk (by simp)
    · rw [if_neg h1] at hgk
      exact absurd hgk (by simp)

/-! ### Claim C5 -/

/-- Claim C5: `detect_timing_attacks` returns `[]` for fewer than 2
samples; otherwise, grouping by the (abstracted) 8-hex-character hash
of the identity string, it emits exactly one finding per group of
size ≥ 2 with sample latency stdev exceeding `0.5 ×` mean, each with
severity `medium` and CWE-208; equal latencies `[1, 1]` give no
finding and latencies `[1, 3]` give exactly one. -/
theorem C5_timing_attacks (hash : String → String) (data : List (String × ℝ)) :
    (data.length < 2 → detectTimingAttacks hash data = []) ∧
    (∀ f ∈ detectTimingAttacks hash data, f.severity = "medium" ∧
      f.cwe = some "CWE-208: Observable Timing Discrepancy") ∧
    (¬ data.length < 2 →
      (detectTimingAttacks hash data).length =
        (firstOccKeys (data.map (fun p => hash p.1))).countP
          (fun k => decide (1 < (groupTimes hash data k).length ∧
            listMean (groupTimes hash data k) * 0.5 <
              sampleStdev (groupTimes hash data k)))) ∧
    detectTimingAttacks hash [("x", (1:ℝ)), ("x", 1)] = [] ∧
    (∃ f, detectTimingAttacks hash [("x", (1:ℝ)), ("x", 3)] = [f] ∧
      f.severity = "medium" ∧
      f.cwe = some "CWE-208: Observable Timing Discrepancy") := by
  refine ⟨?_, ?_, ?_, timing_eval_const hash, ?_⟩
  · intro h
    rw [detectTimingAttacks, if_pos h]
  · intro f hf
    obtain ⟨st, mt, rfl⟩ := timing_mem hash data f hf
    exact ⟨rfl, rfl⟩
  · intro h
    rw [detectTimingAttacks, if_neg h]
    exact length_filterMap_timing _ (fun k => groupTimes hash data k)
  · exact ⟨timingFinding (Real.sqrt 2) 2, timing_eval_var hash, rfl, rfl⟩

/-- Witness for C5: fewer than two samples yield no finding. -/
theorem C5_timing_attacks_witness :
    detectTimingAttacks (fun s => s) [("x", (1:ℝ))] = [] :=
  (C5_timing_attacks (fun s => s) [("x", (1:ℝ))]).1 (by norm_num)

end AnomalyDetector

namespace AnomalyDetector

lemma lookup_baselineAppend_same (b : Baseline) (name : String) (v : Value) :
    (baselineAppend b name v).lookup name =
      some (((b.lookup name).getD []) ++ [v]) := by
  induction b with
  | nil => simp [baselineAppend, List.lookup_cons]
  | cons p rest ih =>
    obtain ⟨k, vs⟩ := p
    by_cases h : k = name
    · subst h
      simp [baselineAppend, List.lookup_cons]
    · have h1 : (k == name) = false := beq_eq_false_iff_ne.mpr h
      have h2 : (name == k) = false := beq_eq_false_iff_ne.mpr (Ne.symm h)
      simp [baselineAppend, List.lookup_cons, h1, h2, ih]

lemma lookup_baselineAppend_ne (b : Baseline) (name k' : String) (v : Value)
    (h : k' ≠ name) :
    (baselineAppend b name v).lookup k' = b.lookup k' := by
  induction b with
  | nil =>
    have h1 : (k' == name) = false := beq_eq_false_iff_ne.mpr h
    simp [baselineAppend, List.lookup_cons, h1]
  | cons p rest ih =>
    obtain ⟨k, vs⟩ := p
    by_cases hk : k = name
    · subst hk
      have h1 : (k' == k) = false := beq_eq_false_iff_ne.mpr h
      simp [baselineAppend, List.lookup_cons, h1]
    · have h1 : (k == name) = false := beq_eq_false_iff_ne.mpr hk
      by_cases hk' : k' = k
      · subst hk'
        simp [baselineAppend, List.lookup_cons, h1]
      · have h2 : (k' == k) = false := beq_eq_false_iff_ne.mpr hk'
        simp [baselineAppend, List.lookup_cons, h1, h2, ih]

lemma foldl_append_isPrefix (feats : List (String × Value)) (b : Baseline)
    (name : String) :
    ((b.lookup name).getD []) <+:
      (((feats.foldl (fun acc p => baselineAppend acc p.1 p.2) b).lookup
        name).getD []) := by
  induction feats generalizing b with
  | nil => exact List.prefix_rfl
  | cons p rest ih =>
    rw [List.foldl_cons]
    refine List.IsPrefix.trans ?_ (ih (baselineAppend b p.1 p.2))
    by_cases h : p.1 = name
    · subst h
      rw [lookup_baselineAppend_same]
      exact ⟨[p.2], rfl⟩
    · rw [lookup_baselineAppend_ne b p.1 name p.2 (Ne.symm h)]

lemma train_isPrefix (rs : List Response) (b : Baseline) (name : String) :
    ((b.lookup name).getD []) <+:
      (((trainBaseline b rs).1.lookup name).getD []) := by
  induction rs generalizing b with
  | nil => exact List.prefix_rfl
  | cons r rest ih =>
    rw [trainBaseline]
    cases hx : extractFeatures r with
    | error e => simp [trainOne, hx]
    | ok feats =>
      simp only [trainOne, hx]
      exact (foldl_append_isPrefix feats b name).trans (ih _)

lemma baselineFetch_isSome (b : Baseline) (name : String)
    (h : (b.lookup name).isSome) :
    baselineFetch b name = (b, (b.lookup name).getD []) := by
  rw [baselineFetch]
  cases hl : b.lookup name with
  | none => rw [hl] at h; simp at h
  | some vs => simp

lemma detectGo_fst (m : ℕ) (feats : List (String × Value)) (b : Baseline)
    (acc : List Finding) : (detectGo m feats b acc).1 = b := by
  induction feats generalizing b acc with
  | nil => rfl
  | cons p rest ih =>
    obtain ⟨name, v⟩ := p
    rw [detectGo]
    by_cases h : (b.lookup name).isSome
    · rw [if_pos h, baselineFetch_isSome b name h]
      cases he : isAnomalous m v ((b.lookup name).getD []) with
      | error e => simp [he]
      | ok pr =>
        obtain ⟨isA, score⟩ := pr
        cases isA
        · simp [he, ih]
        · simp [he, ih]
    · rw [if_neg h]
      exact ih b acc

lemma detect_fst (s : MLAnomalyDetector) (r : Response) :
    (detectAnomalies s r).1 = s.baseline_data := by
  rw [detectAnomalies]
  by_cases h : s.baseline_data.length = 0
  · rw [if_pos h]
  · rw [if_neg h]
    cases hx : extractFeatures r with
    | error e => rfl
    | ok feats => exact detectGo_fst _ _ _ _

/-! ### Claim C8 -/

/-- Claim C8: the baseline store grows monotonically and only via
training: appending a value stores it at the end of the feature's
sequence (creating the sequence on first occurrence, no dedup), after
any `train_baseline` call each feature's stored sequence has the
sequence before the call as a prefix, and `detect_anomalies` leaves
the whole baseline map unchanged. -/
theorem C8_baseline_monotone :
    (∀ (b : Baseline) (name : String) (v : Value),
      (baselineAppend b name v).lookup name =
        some (((b.lookup name).getD []) ++ [v])) ∧
    (∀ (b : Baseline) (rs : List Response) (name : String),
      ((b.lookup name).getD []) <+:
        (((trainBaseline b rs).1.lookup name).getD [])) ∧
    (∀ (s : MLAnomalyDetector) (r : Response),
      (detectAnomalies s r).1 = s.baseline_data) :=
  ⟨lookup_baselineAppend_same, fun b rs name => train_isPrefix rs b name,
   detect_fst⟩

end AnomalyDetector

namespace AnomalyDetector

lemma lookup_append_of_none {β : Type} (l₁ l₂ : List (String × β)) (k : String)
    (h : l₁.lookup k = none) : (l₁ ++ l₂).lookup k = l₂.lookup k := by
  induction l₁ with
  | nil => rfl
  | cons p rest ih =>
    obtain ⟨a, b⟩ := p
    rw [List.cons_append, List.lookup_cons]
    rw [List.lookup_cons] at h
    cases hb : (k == a) with
    | true =>
      rw [hb] at h
      exact Option.noConfusion h
    | false =>
      rw [hb] at h
      exact ih h

/-! ### Claim C9 -/

/-- Claim C9: for every response with a header mapping, the extracted
feature dict contains `content_type` iff the header mapping contains
the key `Content-Type` in exactly that case, with that key's value;
in particular headers stored as `content-type` yield no `content_type`
feature. -/
theorem C9_content_type (r : Response) (hs : List (String × Value))
    (hh : r.headers = some (.map hs)) :
    (∃ fts, extractFeatures r = .ok fts ∧
      fts.lookup "content_type" = hs.lookup "Content-Type") ∧
    (∀ fts, extractFeatures (Response.mk none none none
        (some (.map [("content-type", Value.str "text/html")])) none) =
        .ok fts → fts.lookup "content_type" = none) := by
  constructor
  · obtain ⟨rt, co, sc, hd, rc⟩ := r
    simp only at hh
    subst hh
    refine ⟨_, rfl, ?_⟩
    dsimp only
    have l1 : (match rt with
        | some v => [("response_time", v)]
        | none => ([] : List (String × Value))).lookup "content_type" =
        none := by
      cases rt <;> rfl
    have l2 : (match co with
        | some c => [("response_size", Value.num (c.length : ℝ))]
        | none => ([] : List (String × Value))).lookup "content_type" =
        none := by
      cases co <;> rfl
    have l3 : (match sc with
        | some v => [("status_code", v)]
        | none => ([] : List (String × Value))).lookup "content_type" =
        none := by
      cases sc <;> rfl
    have l6 : (match co with
        | some c => [("content_entropy", Value.num (calculateEntropy c))]
        | none => ([] : List (String × Value))).lookup "content_type" =
        none := by
      cases co <;> rfl
    have l7 : (match co with
        | some c => [("error_pattern", Value.num (detectErrorPatterns c : ℝ))]
        | none => ([] : List (String × Value))).lookup "content_type" =
        none := by
      cases co <;> rfl
    have l8 : (match rc with
        | some v => [("redirect_count", v)]
        | none => ([] : List (String × Value))).lookup "content_type" =
        none := by
      cases rc <;> rfl
    simp only [List.append_assoc]
    rw [lookup_append_of_none _ _ _ l1, lookup_append_of_none _ _ _ l2,
      lookup_append_of_none _ _ _ l3,
      lookup_append_of_none _ _ _ (by rfl :
        (([("header_count", Value.num (hs.length : ℝ))]) :
          List (String × Value)).lookup "content_type" = none)]
    cases hct : hs.lookup "Content-Type" with
    | some v => rfl
    | none =>
      dsimp only
      rw [List.nil_append, lookup_append_of_none _ _ _ l6,
        lookup_append_of_none _ _ _ l7]
      exact l8
  · intro fts h
    rw [show extractFeatures (Response.mk none none none
        (some (.map [("content-type", Value.str "text/html")])) none) =
        .ok [("header_count", Value.num ((1:ℕ) : ℝ))] from rfl] at h
    rw [← Except.ok.inj h]
    rfl

/-- Witness for C9: a response whose headers carry an exact-case
`Content-Type` key. -/
theorem C9_content_type_witness :
    ∃ fts, extractFeatures (Response.mk none none none
        (some (.map [("Content-Type", Value.str "text/html")])) none) =
        .ok fts ∧
      fts.lookup "content_type" =
        List.lookup "Content-Type" [("Content-Type", Value.str "text/html")] :=
  (C9_content_type (Response.mk none none none
      (some (.map [("Content-Type", Value.str "text/html")])) none)
    [("Content-Type", Value.str "text/html")] rfl).1

end AnomalyDetector

namespace AnomalyDetector

lemma detectCategorical_ok_true (s : String) (bl : List Value) (sc : ℝ)
    (h : detectCategoricalAnomaly s bl = .ok (true, sc)) :
    0.9 < sc ∧ sc ≤ 1 := by
  rw [detectCategoricalAnomaly] at h
  by_cases hu : (bl.any fun v => !v.hashable) = true
  · rw [if_pos hu] at h
    exact Except.noConfusion h
  rw [if_neg hu] at h
  by_cases hl : bl.length = 0
  · rw [if_pos hl] at h
    exact Except.noConfusion h
  · rw [if_neg hl] at h
    have h' := Except.ok.inj h
    by_cases hf : ((bl.countP (fun v =>
        match v with
        | .str s' => s' == s
        | _ => false) : ℕ) : ℝ) / (bl.length : ℝ) < 0.1
    · rw [if_pos hf, if_pos hf] at h'
      have hsc : sc = 1 - ((bl.countP (fun v =>
          match v with
          | .str s' => s' == s
          | _ => false) : ℕ) : ℝ) / (bl.length : ℝ) :=
        ((Prod.mk.injEq _ _ _ _).mp h').2.symm
      have hnn : (0:ℝ) ≤ ((bl.countP (fun v =>
          match v with
          | .str s' => s' == s
          | _ => false) : ℕ) : ℝ) / (bl.length : ℝ) :=
        div_nonneg (Nat.cast_nonneg _) (Nat.cast_nonneg _)
      constructor
      · rw [hsc]; linarith
      · rw [hsc]; linarith
    · rw [if_neg hf] at h'
      exact Bool.noConfusion ((Prod.mk.injEq _ _ _ _).mp h').1

lemma detectNumeric_true (x : ℝ) (bl : List Value) (sc : ℝ)
    (h : detectNumericAnomaly x bl = (true, sc)) : 0 ≤ sc ∧ sc ≤ 1 := by
  rw [detectNumericAnomaly] at h
  cases hn : numsOf bl with
  | none =>
    rw [hn] at h
    exact Bool.noConfusion ((Prod.mk.injEq _ _ _ _).mp h).1
  | some nums =>
    rw [hn] at h
    dsimp only at h
    by_cases hσ : (if 1 < nums.length then sampleStdev nums else 0) = 0
    · rw [if_pos hσ] at h
      exact Bool.noConfusion ((Prod.mk.injEq _ _ _ _).mp h).1
    · rw [if_neg hσ] at h
      have hsc : sc = min (|(x - listMean nums) /
          (if 1 < nums.length then sampleStdev nums else 0)| / 10) 1 :=
        ((Prod.mk.injEq _ _ _ _).mp h).2.symm
      constructor
      · rw [hsc]
        exact le_min (div_nonneg (abs_nonneg _) (by norm_num)) zero_le_one
      · rw [hsc]
        exact min_le_right _ _

lemma isAnomalous_true_bounds (m : ℕ) (v : Value) (bl : List Value) (sc : ℝ)
    (h : isAnomalous m v bl = .ok (true, sc)) :
    0 ≤ sc ∧ sc ≤ 1 ∧ (∀ t, v = .str t → 0.8 ≤ sc) := by
  rw [isAnomalous.eq_def] at h
  by_cases hg : bl.length < m
  · rw [if_pos hg] at h
    exact Bool.noConfusion ((Prod.mk.injEq _ _ _ _).mp (Except.ok.inj h)).1
  · rw [if_neg hg] at h
    cases v with
    | num x =>
      obtain ⟨h1, h2⟩ := detectNumeric_true x bl sc (Except.ok.inj h)
      exact ⟨h1, h2, fun t ht => Value.noConfusion ht⟩
    | str s =>
      obtain ⟨h1, h2⟩ := detectCategorical_ok_true s bl sc h
      exact ⟨by linarith, h2, fun t _ => by linarith⟩
    | other hb =>
      exact Bool.noConfusion ((Prod.mk.injEq _ _ _ _).mp (Except.ok.inj h)).1

lemma isAnomalous_no_error (m : ℕ) (v : Value) (bl : List Value)
    (hm : 1 ≤ m) (hhash : bl.all Value.hashable) :
    ∃ p, isAnomalous m v bl = .ok p := by
  rw [isAnomalous.eq_def]
  by_cases hg : bl.length < m
  · exact ⟨_, by rw [if_pos hg]⟩
  · rw [if_neg hg]
    cases v with
    | num x => exact ⟨_, rfl⟩
    | str s =>
      have hl : ¬ bl.length = 0 := by omega
      have hany : ¬ ((bl.any fun v => !v.hashable) = true) := by
        rw [Bool.not_eq_true, List.any_eq_false]
        intro v hv
        have hv2 := List.all_eq_true.mp hhash v hv
        simp [hv2]
      show ∃ p, detectCategoricalAnomaly s bl = .ok p
      rw [detectCategoricalAnomaly, if_neg hany, if_neg hl]
      exact ⟨_, rfl⟩
    | other hb => exact ⟨_, rfl⟩

/-- When a lookup on the baseline map finds a value list, that
key-value pair is an entry of the map. -/
lemma lookup_mem (b : Baseline) (name : String) (vs : List Value)
    (h : b.lookup name = some vs) : (name, vs) ∈ b := by
  induction b with
  | nil => exact Option.noConfusion h
  | cons p rest ih =>
    obtain ⟨k, ws⟩ := p
    rw [List.lookup_cons] at h
    cases hb : (name == k) with
    | true =>
      rw [hb] at h
      have hk : name = k := beq_iff_eq.mp hb
      have hw : ws = vs := Option.some.inj h
      rw [hk, ← hw]
      exact List.mem_cons_self _ _
    | false =>
      rw [hb] at h
      exact List.mem_cons_of_mem _ (ih h)

lemma detectGo_ok (m : ℕ) (hm : 1 ≤ m) (feats : List (String × Value)) :
    ∀ (b : Baseline) (acc : List Finding),
    (∀ q ∈ b, q.2.all Value.hashable) →
    ∃ fs, (detectGo m feats b acc).2 = .ok fs := by
  induction feats with
  | nil =>
    intro b acc _
    exact ⟨acc, rfl⟩
  | cons p rest ih =>
    intro b acc hb
    obtain ⟨name, v⟩ := p
    rw [detectGo]
    by_cases h : (b.lookup name).isSome
    · rw [if_pos h, baselineFetch_isSome b name h]
      obtain ⟨vs, hvs⟩ := Option.isSome_iff_exists.mp h
      have hall : ((b.lookup name).getD []).all Value.hashable := by
        rw [hvs]
        exact hb _ (lookup_mem b name vs hvs)
      obtain ⟨pr, hpr⟩ :=
        isAnomalous_no_error m v ((b.lookup name).getD []) hm hall
      dsimp only
      rw [hpr]
      obtain ⟨isA, score⟩ := pr
      cases isA
      · exact ih _ _ hb
      · exact ih _ _ hb
    · rw [if_neg h]
      exact ih _ _ hb

lemma detectGo_mem (m : ℕ) (feats : List (String × Value)) (b : Baseline)
    (acc fs : List Finding) (h : (detectGo m feats b acc).2 = .ok fs)
    (f : Finding) (hf : f ∈ fs) :
    f ∈ acc ∨ ∃ name v sc bl, isAnomalous m v bl = .ok (true, sc) ∧
      f = mkAnomalyFinding name v sc := by
  induction feats generalizing b acc with
  | nil =>
    left
    exact (Except.ok.inj h) ▸ hf
  | cons p rest ih =>
    obtain ⟨name, v⟩ := p
    rw [detectGo] at h
    by_cases hl : (b.lookup name).isSome
    · rw [if_pos hl] at h
      dsimp only at h
      cases he : isAnomalous m v (baselineFetch b name).2 with
      | error e =>
        rw [he] at h
        exact Except.noConfusion h
      | ok pr =>
        rw [he] at h
        obtain ⟨isA, sc⟩ := pr
        cases isA
        · exact ih _ _ h
        · rcases ih _ _ h with hacc | hrest
          · rcases List.mem_append.mp hacc with h1 | h2
            · exact Or.inl h1
            · right
              refine ⟨name, v, sc, (baselineFetch b name).2, he, ?_⟩
              simpa using h2
          · exact Or.inr hrest
    · rw [if_neg hl] at h
      exact ih _ _ h

lemma calculateSeverity_cases (x : ℝ) :
    calculateSeverity x = "low" ∨ calculateSeverity x = "medium" ∨
      calculateSeverity x = "high" := by
  rw [calculateSeverity]
  by_cases h1 : (0.8:ℝ) ≤ x
  · rw [if_pos h1]
    exact Or.inr (Or.inr rfl)
  · rw [if_neg h1]
    by_cases h2 : (0.5:ℝ) ≤ x
    · rw [if_pos h2]
      exact Or.inr (Or.inl rfl)
    · rw [if_neg h2]
      exact Or.inl rfl

end AnomalyDetector

namespace AnomalyDetector

/-- A trained detector (nonempty baseline, default thresholds). -/
def trainedS : MLAnomalyDetector :=
  MLAnomalyDetector.mk 0.7 10
    [("status_code", List.replicate 10 (Value.num 200))]

/-- A response whose `headers` entry is a value `len()` rejects. -/
def badHeadersResponse : Response :=
  Response.mk none none none (some .notSized) none

/-! ### Claim C6 -/

/-- Counterexample to C6 as stated: on a trained engine, a response
whose `headers` value is not a sized mapping makes `detect_anomalies`
raise `TypeError` (from `len(response['headers'])`) instead of
degrading to a not-anomalous result. -/
theorem C6_no_exception_counterexample :
    (detectAnomalies trainedS badHeadersResponse).2 = .error .typeError := by
  rfl

/-- A detector trained on ten unhashable (e.g. list-valued)
`response_time` values: `train_baseline` stores pass-through fields
unchecked, so such a state is reachable by training on ten responses
whose `response_time` entry is a list. -/
def unhashS : MLAnomalyDetector :=
  MLAnomalyDetector.mk 0.7 10
    [("response_time", List.replicate 10 (Value.other false))]

/-- A response probing `response_time` with a string. -/
def strProbeR : Response :=
  Response.mk (some (Value.str "x")) none none none none

/-- Claim C6 (amended): on a trained engine, `detect_anomalies`
returns without raising for every response whose `headers` entry (if
present) is a sized mapping, provided `min_samples ≥ 1` (as in the
default configuration) and every stored baseline value is hashable —
which holds for every baseline of numbers and strings, the only
values the spec's data model stores; a numeric-statistics computation
that would fail degrades to `(false, 0)`.  But a non-sized `headers`
value raises `TypeError` from `len()`, and probing a string-valued
feature against a baseline containing an unhashable value raises
`TypeError` from the counting loop of `_detect_categorical_anomaly`,
as the final conjunct shows on a reachable trained state. -/
theorem C6_no_exception (s : MLAnomalyDetector) (r : Response)
    (hh : r.headers ≠ some .notSized) (hm : 1 ≤ s.min_samples)
    (hhash : ∀ q ∈ s.baseline_data, q.2.all Value.hashable) :
    (∃ fs, (detectAnomalies s r).2 = .ok fs) ∧
    (∀ (x : ℝ) (bl : List Value), numsOf bl = none →
      detectNumericAnomaly x bl = (false, 0)) ∧
    (detectAnomalies unhashS strProbeR).2 = .error .typeError := by
  refine ⟨?_, ?_, ?_⟩
  · rw [detectAnomalies]
    by_cases hb : s.baseline_data.length = 0
    · rw [if_pos hb]
      exact ⟨[], rfl⟩
    · rw [if_neg hb]
      have hex : ∃ fts, extractFeatures r = .ok fts := by
        obtain ⟨rt, co, sc, hd, rc⟩ := r
        cases hd with
        | none => exact ⟨_, rfl⟩
        | some hv =>
          cases hv with
          | map hs => exact ⟨_, rfl⟩
          | notSized => exact absurd rfl hh
      obtain ⟨fts, hfts⟩ := hex
      rw [hfts]
      exact detectGo_ok s.min_samples hm fts s.baseline_data [] hhash
  · intro x bl hn
    rw [detectNumericAnomaly, hn]
  · rfl

/-- Witness for the amended C6: a well-shaped response on the trained
engine, and the numeric detector degrading on a non-numeric
baseline. -/
theorem C6_no_exception_witness :
    (∃ fs, (detectAnomalies trainedS
      (Response.mk none none none none none)).2 = .ok fs) ∧
    detectNumericAnomaly 0 [Value.str "a"] = (false, 0) := by
  have h := C6_no_exception trainedS (Response.mk none none none none none)
    (by simp) (by norm_num [trainedS])
    (by
      intro q hq
      have hq2 : q = ("status_code", List.replicate 10 (Value.num 200)) := by
        simpa [trainedS] using hq
      rw [hq2]
      rfl)
  exact ⟨h.1, h.2.1 0 [Value.str "a"] rfl⟩

/-! ### Claim C7 -/

/-- Counterexample to C7 as stated: `detect_timing_attacks` produces a
finding that carries no anomaly score, no feature name and no observed
value. -/
theorem C7_finding_fields_counterexample :
    (detectTimingAttacks (fun s => s) [("x", (1:ℝ)), ("x", 3)]).map
        Finding.anomaly_score = [none] ∧
    (detectTimingAttacks (fun s => s) [("x", (1:ℝ)), ("x", 3)]).map
        Finding.feature = [none] := by
  rw [timing_eval_var]
  exact ⟨rfl, rfl⟩

/-- Claim C7 (amended): every finding of `detect_anomalies` carries
the type tag, a severity in {low, medium, high}, the feature name, the
observed value, an anomaly score in [0, 1] and evidence, description
and remediation entries; findings of `detect_timing_attacks` carry the
type tag, severity `medium`, evidence, description, remediation and a
CWE-208 reference, but no feature name, observed value, or anomaly
score. -/
theorem C7_finding_fields :
    (∀ (s : MLAnomalyDetector) (r : Response) (b : Baseline)
        (fs : List Finding) (f : Finding),
      detectAnomalies s r = (b, .ok fs) → f ∈ fs →
      f.type = "ML Anomaly Detection" ∧
      (f.severity = "low" ∨ f.severity = "medium" ∨ f.severity = "high") ∧
      f.feature.isSome ∧ f.value.isSome ∧
      (∃ sc, f.anomaly_score = some sc ∧ 0 ≤ sc ∧ sc ≤ 1) ∧
      f.remediation =
        "Investigate the anomalous behavior for security implications") ∧
    (∀ (hash : String → String) (data : List (String × ℝ)) (f : Finding),
      f ∈ detectTimingAttacks hash data →
      f.type = "ML Anomaly - Timing Attack" ∧ f.severity = "medium" ∧
      f.feature = none ∧ f.value = none ∧ f.anomaly_score = none ∧
      f.cwe = some "CWE-208: Observable Timing Discrepancy" ∧
      f.remediation =
        "Implement constant-time operations for sensitive comparisons") := by
  constructor
  · intro s r b fs f h hf
    rw [detectAnomalies] at h
    by_cases hb : s.baseline_data.length = 0
    · rw [if_pos hb] at h
      have hfs : ([] : List Finding) = fs :=
        Except.ok.inj (congrArg Prod.snd h)
      rw [← hfs] at hf
      exact absurd hf (List.not_mem_nil f)
    · rw [if_neg hb] at h
      cases hx : extractFeatures r with
      | error e =>
        rw [hx] at h
        exact Except.noConfusion (congrArg Prod.snd h)
      | ok feats =>
        rw [hx] at h
        have h2 : (detectGo s.min_samples feats s.baseline_data []).2 =
            .ok fs := congrArg Prod.snd h
        rcases detectGo_mem _ _ _ _ _ h2 f hf with h0 | ⟨name, v, sc, bl, hia, hfeq⟩
        · exact absurd h0 (List.not_mem_nil f)
        · subst hfeq
          obtain ⟨hb1, hb2, -⟩ := isAnomalous_true_bounds _ _ _ _ hia
          exact ⟨rfl, calculateSeverity_cases sc, rfl, rfl,
            ⟨sc, rfl, hb1, hb2⟩, rfl⟩
  · intro hash data f hf
    obtain ⟨st, mt, rfl⟩ := timing_mem hash data f hf
    exact ⟨rfl, rfl, rfl, rfl, rfl, rfl, rfl⟩

/-- Witness for the amended C7: the concrete timing finding produced
for latencies `[1, 3]`. -/
theorem C7_finding_fields_witness :
    timingFinding (Real.sqrt 2) 2 ∈
      detectTimingAttacks (fun s => s) [("x", (1:ℝ)), ("x", 3)] ∧
    (timingFinding (Real.sqrt 2) 2).severity = "medium" ∧
    (timingFinding (Real.sqrt 2) 2).cwe =
      some "CWE-208: Observable Timing Discrepancy" := by
  have hmem : timingFinding (Real.sqrt 2) 2 ∈
      detectTimingAttacks (fun s => s) [("x", (1:ℝ)), ("x", 3)] := by
    rw [timing_eval_var]
    exact List.mem_singleton_self _
  have h := C7_finding_fields.2 (fun s => s) [("x", (1:ℝ)), ("x", 3)] _ hmem
  exact ⟨hmem, h.2.1, h.2.2.2.2.2.1⟩

end AnomalyDetector

namespace AnomalyDetector

/-- A detector trained on ten identical `content_type` strings. -/
def catS : MLAnomalyDetector :=
  MLAnomalyDetector.mk 0.7 10
    [("content_type", List.replicate 10 (Value.str "a"))]

/-- A response probing a never-seen `Content-Type`. -/
def catR : Response :=
  Response.mk none none none (some (.map [("Content-Type", Value.str "b")])) none

lemma isAnomalous_cat_eval :
    isAnomalous 10 (.str "b") (List.replicate 10 (Value.str "a")) =
      .ok (true, 1) := by
  have hrep : (List.replicate 10 "a").map Value.str =
      List.replicate 10 (Value.str "a") := by
    simp [List.map_replicate]
  rw [← hrep, isAnomalous_str_eval 10 "b" (List.replicate 10 "a")
    (by simp) (by simp)]
  have hc : (List.replicate 10 "a").count "b" = 0 := by decide
  have hl : (List.replicate 10 "a").length = 10 := by decide
  rw [hc, hl]
  rw [if_pos (by norm_num), if_pos (by norm_num)]
  norm_num

lemma detect_cat_eval :
    detectAnomalies catS catR =
      (catS.baseline_data,
       .ok [mkAnomalyFinding "content_type" (Value.str "b") 1]) := by
  have h1 : detectAnomalies catS catR =
      detectGo 10
        [("header_count", Value.num ((1:ℕ) : ℝ)), ("content_type", Value.str "b")]
        [("content_type", List.replicate 10 (Value.str "a"))] [] := by
    rfl
  rw [h1, detectGo]
  rw [if_neg (by decide : ¬ ((List.lookup "header_count"
      [("content_type", List.replicate 10 (Value.str "a"))]).isSome = true))]
  rw [detectGo]
  rw [if_pos (by decide : (List.lookup "content_type"
      [("content_type", List.replicate 10 (Value.str "a"))]).isSome = true)]
  dsimp only
  have hbf : baselineFetch
      [("content_type", List.replicate 10 (Value.str "a"))] "content_type" =
      ([("content_type", List.replicate 10 (Value.str "a"))],
       List.replicate 10 (Value.str "a")) := rfl
  rw [hbf]
  rw [show (([("content_type", List.replicate 10 (Value.str "a"))],
      List.replicate 10 (Value.str "a")).2) =
      List.replicate 10 (Value.str "a") from rfl]
  rw [isAnomalous_cat_eval]
  rfl

/-! ### Claim C10 -/

/-- Claim C10: every finding of `detect_anomalies` whose observed
value is a string has severity `high` (a categorical anomaly has
frequency `< 0.1`, so its score `1 - frequency` exceeds `0.9` and
reaches the `≥ 0.8` band). -/
theorem C10_categorical_high (s : MLAnomalyDetector) (r : Response)
    (b : Baseline) (fs : List Finding) (f : Finding) (t : String)
    (h : detectAnomalies s r = (b, .ok fs)) (hf : f ∈ fs)
    (hv : f.value = some (.str t)) : f.severity = "high" := by
  rw [detectAnomalies] at h
  by_cases hb : s.baseline_data.length = 0
  · rw [if_pos hb] at h
    have hfs : ([] : List Finding) = fs :=
      Except.ok.inj (congrArg Prod.snd h)
    rw [← hfs] at hf
    exact absurd hf (List.not_mem_nil f)
  · rw [if_neg hb] at h
    cases hx : extractFeatures r with
    | error e =>
      rw [hx] at h
      exact Except.noConfusion (congrArg Prod.snd h)
    | ok feats =>
      rw [hx] at h
      have h2 : (detectGo s.min_samples feats s.baseline_data []).2 =
          .ok fs := congrArg Prod.snd h
      rcases detectGo_mem _ _ _ _ _ h2 f hf with
        h0 | ⟨name, v, sc, bl, hia, hfeq⟩
      · exact absurd h0 (List.not_mem_nil f)
      · subst hfeq
        have hvv : v = Value.str t :=
          Option.some.inj (show some v = some (Value.str t) from hv)
        subst hvv
        have h08 : (0.8:ℝ) ≤ sc :=
          (isAnomalous_true_bounds _ _ _ _ hia).2.2 t rfl
        show calculateSeverity sc = "high"
        rw [calculateSeverity, if_pos h08]

/-- Witness for C10: a concrete categorical anomaly is classified
`high`. -/
theorem C10_categorical_high_witness :
    detectAnomalies catS catR =
      (catS.baseline_data,
       .ok [mkAnomalyFinding "content_type" (Value.str "b") 1]) ∧
    (mkAnomalyFinding "content_type" (Value.str "b") 1).value =
      some (.str "b") ∧
    (mkAnomalyFinding "content_type" (Value.str "b") 1).severity = "high" :=
  ⟨detect_cat_eval, rfl,
   C10_categorical_high catS catR _ _ _ "b" detect_cat_eval
     (List.mem_singleton_self _) rfl⟩

end AnomalyDetector
